import Mathlib

/-!
Verification development for the AcctSolver conversational client.

The definitions below are a shallow embedding of the TypeScript sources:
`services/geminiService.ts` (attachment classification, base64 decoding,
content assembly, image-generation response folding), `App.tsx` (session
state, restore, search filter, goHome/resetChat) and
`components/InputArea.tsx` (mime resolution from file extensions, intent
prefix toggling).  JavaScript string primitives (`startsWith`, `includes`,
`split`, `replace` (first occurrence), `trim`, `toLowerCase`, `atob`,
`TextDecoder`) are modelled as executable Lean functions over `String.data`
character lists; strings are sequences of characters (the ASCII fragment,
which is all the embedded code manipulates, behaves identically in UTF-16
and in Lean strings).
-/

namespace AcctSolver

/-! ## JavaScript string primitives -/

/-- Model of JS `s.startsWith(pat)`. -/
def jsStartsWith (s pat : String) : Bool :=
  pat.data.isPrefixOf s.data

/-- One scanning step of JS `s.includes(sub)`: does `sub` occur in `l`? -/
def containsSeq (sub : List Char) : List Char → Bool
  | [] => sub.isPrefixOf []
  | c :: cs => sub.isPrefixOf (c :: cs) || containsSeq sub cs

/-- Model of JS `s.includes(sub)`. -/
def jsIncludes (s sub : String) : Bool :=
  containsSeq sub.data s.data

/-- Model of JS `s.toLowerCase()` (ASCII fragment). -/
def jsToLower (s : String) : String :=
  ⟨s.data.map Char.toLower⟩

/-- Whitespace recognised by JS `trim` (the code points the app can meet). -/
def isJsSpace (c : Char) : Bool :=
  c = ' ' || c = '\t' || c = '\n' || c = '\r' || c = '\x0b' || c = '\x0c'

/-- Model of JS `s.trim()`. -/
def jsTrim (s : String) : String :=
  ⟨((s.data.dropWhile isJsSpace).reverse.dropWhile isJsSpace).reverse⟩

/-- Model of JS `s.substring(n)` (drop the first `n` UTF-16 units / chars). -/
def dropChars (s : String) (n : Nat) : String :=
  ⟨s.data.drop n⟩

/-- Model of JS `s.length` (ASCII fragment: one UTF-16 unit per char). -/
def strLen (s : String) : Nat :=
  s.data.length

/-- Model of JS `s.split(sep)` for a one-character separator, on char lists. -/
def splitOnChar (sep : Char) : List Char → List (List Char)
  | [] => [[]]
  | c :: cs =>
    if c = sep then [] :: splitOnChar sep cs
    else
      match splitOnChar sep cs with
      | [] => [[c]]
      | g :: gs => (c :: g) :: gs

/-- Model of JS `s.split(sep)` for a one-character separator. -/
def jsSplit (sep : Char) (s : String) : List String :=
  (splitOnChar sep s.data).map (fun l => ⟨l⟩)

/-- Model of JS `s.replace(pat, repl)` with a string pattern: replaces only
the first occurrence, on char lists. -/
def replaceFirstSeq (pat repl : List Char) : List Char → List Char
  | [] => if pat.isPrefixOf ([] : List Char) then repl else []
  | c :: cs =>
    if pat.isPrefixOf (c :: cs) then repl ++ (c :: cs).drop pat.length
    else c :: replaceFirstSeq pat repl cs

/-- Model of JS `s.replace(pat, repl)` (first occurrence only). -/
def jsReplaceFirst (s pat repl : String) : String :=
  ⟨replaceFirstSeq pat.data repl.data s.data⟩

/-! ## JS `atob` (forgiving base64) and `TextDecoder` (UTF-8, replacement) -/

/-- Value of a base64 alphabet character. -/
def base64Val (c : Char) : Option Nat :=
  if 'A' ≤ c ∧ c ≤ 'Z' then some (c.toNat - 65)
  else if 'a' ≤ c ∧ c ≤ 'z' then some (c.toNat - 97 + 26)
  else if '0' ≤ c ∧ c ≤ '9' then some (c.toNat - 48 + 52)
  else if c = '+' then some 62
  else if c = '/' then some 63
  else none

/-- ASCII whitespace removed by the forgiving-base64 algorithm behind `atob`. -/
def isB64Ws (c : Char) : Bool :=
  c = ' ' || c = '\t' || c = '\n' || c = '\x0c' || c = '\r'

/-- Map base64 characters to their 6-bit values, failing on a bad character. -/
def b64Vals : List Char → Option (List Nat)
  | [] => some []
  | c :: cs =>
    match base64Val c, b64Vals cs with
    | some v, some vs => some (v :: vs)
    | _, _ => none

/-- Regroup 6-bit values into bytes (4 values to 3 bytes; a trailing group of
2 or 3 values yields 1 or 2 bytes; a trailing single value is a failure). -/
def b64Bytes : List Nat → Option (List Nat)
  | [] => some []
  | [_] => none
  | [a, b] => some [a * 4 + b / 16]
  | [a, b, c] => some [a * 4 + b / 16, b % 16 * 16 + c / 4]
  | a :: b :: c :: d :: rest =>
    (b64Bytes rest).map
      (fun l => (a * 4 + b / 16) :: (b % 16 * 16 + c / 4) :: (c % 4 * 64 + d) :: l)

/-- Model of JS `atob`: the WHATWG forgiving-base64 decode.  Returns the
"binary string" (one char per byte), or `none` on malformed input, matching
the `InvalidCharacterError` that `atob` throws. -/
def jsAtob (s : String) : Option String :=
  let cleaned := s.data.filter (fun c => !isB64Ws c)
  let trimmed :=
    if cleaned.length % 4 = 0 then
      match cleaned.reverse with
      | '=' :: '=' :: rest => rest.reverse
      | '=' :: rest => rest.reverse
      | _ => cleaned
    else cleaned
  if trimmed.length % 4 = 1 then none
  else
    match b64Vals trimmed with
    | none => none
    | some vs =>
      match b64Bytes vs with
      | none => none
      | some bytes => some ⟨bytes.map Char.ofNat⟩

/-- U+FFFD, the replacement character emitted by `TextDecoder`. -/
def replChar : Char := Char.ofNat 0xFFFD

/-- Model of `new TextDecoder().decode(bytes)`: UTF-8 decoding with
replacement (never throws).  The `fuel` argument only makes the recursion
structural (every step consumes at least one byte, so `fuel = length` never
runs out). -/
def utf8DecodeAux : Nat → List Nat → List Char
  | 0, _ => []
  | _, [] => []
  | fuel + 1, b :: rest =>
    if b < 0x80 then Char.ofNat b :: utf8DecodeAux fuel rest
    else if b < 0xC2 then replChar :: utf8DecodeAux fuel rest
    else if b < 0xE0 then
      match rest with
      | [] => [replChar]
      | b1 :: rest1 =>
        if 0x80 ≤ b1 && b1 < 0xC0 then
          Char.ofNat ((b - 0xC0) * 64 + (b1 - 0x80)) :: utf8DecodeAux fuel rest1
        else replChar :: utf8DecodeAux fuel (b1 :: rest1)
    else if b < 0xF0 then
      match rest with
      | [] => [replChar]
      | b1 :: rest1 =>
        if (if b = 0xE0 then 0xA0 else 0x80) ≤ b1 && b1 ≤ (if b = 0xED then 0x9F else 0xBF) then
          match rest1 with
          | [] => [replChar]
          | b2 :: rest2 =>
            if 0x80 ≤ b2 && b2 < 0xC0 then
              Char.ofNat ((b - 0xE0) * 4096 + (b1 - 0x80) * 64 + (b2 - 0x80)) ::
                utf8DecodeAux fuel rest2
            else replChar :: utf8DecodeAux fuel (b2 :: rest2)
        else replChar :: utf8DecodeAux fuel (b1 :: rest1)
    else if b < 0xF5 then
      match rest with
      | [] => [replChar]
      | b1 :: rest1 =>
        if (if b = 0xF0 then 0x90 else 0x80) ≤ b1 && b1 ≤ (if b = 0xF4 then 0x8F else 0xBF) then
          match rest1 with
          | [] => [replChar]
          | b2 :: rest2 =>
            if 0x80 ≤ b2 && b2 < 0xC0 then
              match rest2 with
              | [] => [replChar]
              | b3 :: rest3 =>
                if 0x80 ≤ b3 && b3 < 0xC0 then
                  Char.ofNat ((b - 0xF0) * 262144 + (b1 - 0x80) * 4096 +
                    (b2 - 0x80) * 64 + (b3 - 0x80)) :: utf8DecodeAux fuel rest3
                else replChar :: utf8DecodeAux fuel (b3 :: rest3)
            else replChar :: utf8DecodeAux fuel (b2 :: rest2)
        else replChar :: utf8DecodeAux fuel (b1 :: rest1)
    else replChar :: utf8DecodeAux fuel rest

/-- Model of `new TextDecoder().decode(bytes)`. -/
def utf8DecodeBytes (l : List Nat) : List Char :=
  utf8DecodeAux l.length l

/-! ## Data model (`types.ts`) -/

/-- An uploaded file: data-URL or raw base64 payload, declared mime type,
file name. -/
structure Attachment where
  data : String
  mimeType : String
  name : String
deriving DecidableEq

/-- An app `Message`.  The timestamp is the epoch-milliseconds value of the
JS `Date` object. -/
structure AppMessage where
  id : String
  role : String
  text : String
  timestamp : Nat
  attachment : Option Attachment := none
  image : Option String := none
deriving DecidableEq

/-- A content part sent to or received from the backend: `{text: ...}` or
`{inlineData: {mimeType, data}}`. -/
inductive Part where
  | text (s : String)
  | inlineData (mimeType : String) (data : String)
deriving DecidableEq

/-- A `Content` object: role plus ordered parts. -/
structure Content where
  role : String
  parts : List Part
deriving DecidableEq

/-! ## `services/geminiService.ts` -/

/-- `isTextBased` (geminiService lines 15-22): is a mime type decodable
text? -/
def isTextBased (mimeType : String) : Bool :=
  jsStartsWith mimeType "text/" ||
  mimeType == "application/json" ||
  mimeType == "application/xml" ||
  mimeType == "application/x-yaml" ||
  jsIncludes mimeType "csv" ||
  jsIncludes mimeType "script"

/-- `decodeBase64Text` (lines 25-37): `atob`, then bytes via `charCodeAt`,
then `TextDecoder`; any `atob` failure is caught and yields `""`. -/
def decodeBase64Text (base64 : String) : String :=
  match jsAtob base64 with
  | none => ""
  | some binaryString => ⟨utf8DecodeBytes (binaryString.data.map Char.toNat)⟩

/-- The data-URL payload extraction `data.split(',')[1] || data` used at
lines 90, 112, 135 and 186. -/
def extractBase64 (data : String) : String :=
  match (jsSplit ',' data).get? 1 with
  | none => data
  | some seg => if seg = "" then data else seg

/-- The shape returned by `sendMessageToGemini`. -/
structure GeminiResponse where
  text : String
  generatedImage : Option String := none
deriving DecidableEq

/-- The data URL built for a generated image part (line 67). -/
def mkInlineDataUrl (mimeType data : String) : String :=
  "data:" ++ mimeType ++ ";base64," ++ data

/-- The loop over `response.candidates[0].content.parts` (lines 64-72):
accumulates text of text parts, and (re)assigns the image for each
inline-data part. -/
def collectImageParts : List Part → String → Option String → String × Option String
  | [], text, image => (text, image)
  | Part.inlineData m d :: rest, text, _ =>
    collectImageParts rest text (some (mkInlineDataUrl m d))
  | Part.text s :: rest, text, image =>
    collectImageParts rest (if s = "" then text else text ++ s) image

/-- Canned message used when an image response has no text (line 75). -/
def cannedImageText : String := "Here is the visual representation you requested."

/-- The `GeminiResponse` assembled from an image-generation response's parts
(lines 61-77), including the `text || canned` fallback. -/
def imageGenResult (parts : List Part) : GeminiResponse :=
  let r := collectImageParts parts "" none
  { text := if r.1 = "" then cannedImageText else r.1, generatedImage := r.2 }

/-- The image-generation routing guard `prompt.startsWith("Generate Image:")`
(line 46). -/
def routesToImageGen (prompt : String) : Bool :=
  jsStartsWith prompt "Generate Image:"

/-- The stripped image prompt
`prompt.replace("Generate Image:", "").trim()` (line 47). -/
def imagePromptOf (prompt : String) : String :=
  jsTrim (jsReplaceFirst prompt "Generate Image:" "")

/-- Parts emitted for one history message (lines 85-127): attachment parts
(decoded-text marker, or name marker plus inline data), or a legacy inline
image, followed by the message's own text as a final part. -/
def historyParts (msg : AppMessage) : List Part :=
  (match msg.attachment with
   | some att =>
     let base64Data := extractBase64 att.data
     if isTextBased att.mimeType then
       [Part.text ("[Attached File: " ++ att.name ++ "]\n" ++
          decodeBase64Text base64Data ++ "\n[End of File]")]
     else
       [Part.text ("[Attached File: " ++ att.name ++ "]"),
        Part.inlineData att.mimeType base64Data]
   | none =>
     match msg.image with
     | some img =>
       if img = "" then []
       else [Part.inlineData "image/jpeg" (extractBase64 img)]
     | none => []) ++
  [Part.text msg.text]

/-- Parts of the current (not-yet-sent) turn (lines 130-155): attachment
parts (note the extra trailing blank line after the textual file marker),
then the prompt text. -/
def currentParts (prompt : String) (attachment : Option Attachment) : List Part :=
  (match attachment with
   | some att =>
     let base64Data := extractBase64 att.data
     if isTextBased att.mimeType then
       [Part.text ("[Attached File: " ++ att.name ++ "]\n" ++
          decodeBase64Text base64Data ++ "\n[End of File]\n\n")]
     else
       [Part.text ("[Attached File: " ++ att.name ++ "]"),
        Part.inlineData att.mimeType base64Data]
   | none => []) ++
  [Part.text prompt]

/-- The full `contents` array sent on the standard chat flow (lines 81-161):
history turns followed by the current user turn. -/
def assembleContents (history : List AppMessage) (prompt : String)
    (attachment : Option Attachment) : List Content :=
  history.map (fun m => ⟨m.role, historyParts m⟩) ++ [⟨"user", currentParts prompt attachment⟩]

/-! ## `App.tsx`: prompt context, session state, restore, filter -/

/-- The effective prompt built by `handleSendMessage` (App.tsx lines
104-108): the draft text, prefixed with the selected subject when one is
set. -/
def promptContext (selectedSubject : Option String) (text : String) : String :=
  match selectedSubject with
  | some s => "[Subject: " ++ s ++ "] " ++ text
  | none => text

/-- In-memory `ChatState`. -/
structure ChatState where
  messages : List AppMessage
  isLoading : Bool
  selectedSubject : Option String
deriving DecidableEq

/-- A message as serialized in the durable snapshot: the timestamp is its
serialized string form. -/
structure StoredMessage where
  id : String
  role : String
  text : String
  timestamp : String
  attachment : Option Attachment := none
  image : Option String := none
deriving DecidableEq

/-- The durable snapshot stored under `acctsolver_chat_state`. -/
structure StoredState where
  messages : List StoredMessage
  isLoading : Bool
  selectedSubject : Option String
deriving DecidableEq

/-- Digit character for a decimal digit value. -/
def digitToChar (d : Nat) : Char := Char.ofNat (48 + d)

/-- Decimal digit value of a character. -/
def charToDigit (c : Char) : Nat := c.toNat - 48

/-- Little-endian decimal digits of `n`; the `fuel` argument only makes the
recursion structural (`fuel = n` suffices because `n / 10 < n`). -/
def natDigitsRevAux : Nat → Nat → List Nat
  | 0, _ => []
  | _, 0 => []
  | fuel + 1, n + 1 => (n + 1) % 10 :: natDigitsRevAux fuel ((n + 1) / 10)

/-- Little-endian decimal digits of `n` (empty for `0`). -/
def natDigitsRev (n : Nat) : List Nat := natDigitsRevAux n n

/-- Stand-in for `JSON.stringify`'s serialization of a `Date`: an injective
decimal rendering of the epoch-milliseconds value (the app never inspects
the string, it only parses it back with `new Date`). -/
def serializeDate (t : Nat) : String :=
  ⟨((natDigitsRev t).map digitToChar).reverse⟩

/-- Stand-in for `new Date(msg.timestamp)` applied to a serialized
timestamp: parse the decimal rendering back to epoch milliseconds. -/
def parseStoredDate (s : String) : Nat :=
  Nat.ofDigits 10 ((s.data.map charToDigit).reverse)

/-- `JSON.stringify` of one message. -/
def serializeMessage (m : AppMessage) : StoredMessage :=
  ⟨m.id, m.role, m.text, serializeDate m.timestamp, m.attachment, m.image⟩

/-- The spread `{...msg, timestamp: new Date(msg.timestamp)}` used on
restore (App.tsx lines 21-24). -/
def reviveMessage (m : StoredMessage) : AppMessage :=
  ⟨m.id, m.role, m.text, parseStoredDate m.timestamp, m.attachment, m.image⟩

/-- `JSON.stringify(state)` as written by the autosave interval. -/
def serializeState (st : ChatState) : StoredState :=
  ⟨st.messages.map serializeMessage, st.isLoading, st.selectedSubject⟩

/-- The empty default state (App.tsx lines 34-38). -/
def initialChatState : ChatState :=
  ⟨[], false, none⟩

/-- The `useState` initializer (App.tsx lines 15-39): `none` covers both a
missing snapshot and a failed read/parse (the `catch` branch); a present
snapshot has its timestamps revived and `isLoading` forced to `false`. -/
def restoreState : Option StoredState → ChatState
  | none => initialChatState
  | some saved => ⟨saved.messages.map reviveMessage, false, saved.selectedSubject⟩

/-- A world for frame reasoning: the in-memory state paired with the durable
snapshot (the `localStorage` entry). -/
def SessionWorld := ChatState × Option StoredState

/-- `goHome` (App.tsx lines 163-166): clears messages and subject in memory;
does not touch `localStorage`. -/
def goHome (w : SessionWorld) : SessionWorld :=
  ({ w.1 with messages := [], selectedSubject := none }, w.2)

/-- `resetChat` (App.tsx lines 151-161), once confirmed: resets the state to
the empty default and removes the durable snapshot immediately. -/
def resetChat (_w : SessionWorld) : SessionWorld :=
  (initialChatState, none)

/-- `displayedMessages` (App.tsx lines 169-173): the search filter.  The
branch condition is the truthiness of `searchTerm.trim()`. -/
def displayedMessages (messages : List AppMessage) (searchTerm : String) : List AppMessage :=
  if jsTrim searchTerm = "" then messages
  else messages.filter (fun msg => jsIncludes (jsToLower msg.text) (jsToLower searchTerm))

/-! ## `components/InputArea.tsx`: mime resolution and intent toggles -/

/-- The extension extracted by `file.name.split('.').pop()?.toLowerCase()`
(InputArea line 86). -/
def extOf (name : String) : String :=
  jsToLower (((jsSplit '.' name).getLast?).getD "")

/-- The `switch (ext)` table (InputArea lines 91-101); the default case
leaves the mime type unchanged. -/
def resolveExtMime (ext fallback : String) : String :=
  if ext = "csv" then "text/csv"
  else if ext = "md" then "text/markdown"
  else if ext = "json" then "application/json"
  else if ext = "pdf" then "application/pdf"
  else if ext = "txt" then "text/plain"
  else if ext = "tsv" then "text/tab-separated-values"
  else if ext = "xml" then "text/xml"
  else if ext = "yml" then "text/yaml"
  else if ext = "yaml" then "text/yaml"
  else fallback

/-- The mime type stored on the attachment by `handleFileSelect` (InputArea
lines 84-108): extension-based resolution when the declared type is missing
or generic, then the final `mimeType || 'application/octet-stream'`. -/
def effectiveMimeType (fileType name : String) : String :=
  let mt :=
    if fileType = "" ∨ fileType = "application/octet-stream" then
      resolveExtMime (extOf name) fileType
    else fileType
  if mt = "" then "application/octet-stream" else mt

/-- The shared shape of the three toggle handlers: strip each conflicting
recognised head marker, then toggle the handler's own marker. -/
def stripConflicting (others : List String) (d : String) : String :=
  others.foldl (fun t q => if jsStartsWith t q then dropChars t (strLen q) else t) d

/-- One toggle handler: remove conflicting markers, then remove the
handler's own marker if present, else prepend it. -/
def togglePrefixOp (p : String) (others : List String) (d : String) : String :=
  let n := stripConflicting others d
  if jsStartsWith n p then dropChars n (strLen p) else p ++ n

/-- `handleExplainClick` (InputArea lines 140-158) on the draft text. -/
def handleExplainClick (d : String) : String :=
  togglePrefixOp "Explain the concept of " ["Exam Note: ", "Generate Image: "] d

/-- `handleExamModeClick` (InputArea lines 160-178) on the draft text. -/
def handleExamModeClick (d : String) : String :=
  togglePrefixOp "Exam Note: " ["Explain the concept of ", "Generate Image: "] d

/-- `handleChartClick` (InputArea lines 180-198) on the draft text. -/
def handleChartClick (d : String) : String :=
  togglePrefixOp "Generate Image: " ["Explain the concept of ", "Exam Note: "] d

/-! ## Spec-side reference functions

These follow the specification's words, for comparison with the
code-derived definitions above. -/

/-- Concatenation of all text parts of a response, in their original order
(spec wording for the image-response text). -/
def allTextConcat : List Part → String
  | [] => ""
  | Part.text s :: rest => s ++ allTextConcat rest
  | Part.inlineData _ _ :: rest => allTextConcat rest

/-- The data URL of the LAST inline-image part of a response, if any. -/
def lastInlineImage : List Part → Option String
  | [] => none
  | Part.text _ :: rest => lastInlineImage rest
  | Part.inlineData m d :: rest =>
    match lastInlineImage rest with
    | some u => some u
    | none => some (mkInlineDataUrl m d)

/-- The data URL of the FIRST inline-image part of a response, if any (the
image the claim says is retained). -/
def firstInlineImage : List Part → Option String
  | [] => none
  | Part.text _ :: rest => firstInlineImage rest
  | Part.inlineData m d :: _ => some (mkInlineDataUrl m d)

/-- The payload described by the claim for attachment data: the substring
after the FIRST comma when one is present, the string itself otherwise. -/
def specAfterComma (s : String) : String :=
  if ',' ∈ s.data then ⟨(s.data.dropWhile (fun c => c != ',')).drop 1⟩ else s

/-! ## Helper lemmas on the string model -/

theorem strData_append (a b : String) : (a ++ b).data = a.data ++ b.data := by
  cases a; cases b; rfl

theorem strEqOfData {a b : String} (h : a.data = b.data) : a = b := by
  cases a; cases b; exact congrArg String.mk h

theorem strMkData (s : String) : (⟨s.data⟩ : String) = s := by
  cases s; rfl

theorem strEmpty_append (s : String) : "" ++ s = s :=
  strEqOfData (by rw [strData_append]; exact List.nil_append _)

theorem strAppend_empty (s : String) : s ++ "" = s :=
  strEqOfData (by rw [strData_append]; exact List.append_nil _)

theorem strAppend_assoc (a b c : String) : a ++ b ++ c = a ++ (b ++ c) :=
  strEqOfData (by simp [strData_append])

/-- A list that is a prefix of neither of two concrete lists that are not
prefixes of each other stays a non-prefix after appending. -/
theorem not_prefix_append_of (q p : List Char) (hqp : ¬ q <+: p) (hpq : ¬ p <+: q)
    (e : List Char) : ¬ q <+: (p ++ e) := by
  induction q generalizing p with
  | nil => exact absurd (List.nil_prefix) hqp
  | cons a q' ih =>
    cases p with
    | nil => exact absurd (List.nil_prefix) hpq
    | cons b p' =>
      intro h
      rw [List.cons_append, List.cons_prefix_cons] at h
      obtain ⟨hab, h'⟩ := h
      subst hab
      exact ih p' (fun hh => hqp (List.cons_prefix_cons.mpr ⟨rfl, hh⟩))
        (fun hh => hpq (List.cons_prefix_cons.mpr ⟨rfl, hh⟩)) h'

theorem jsStartsWith_append_false (p q : String)
    (h1 : ¬ q.data <+: p.data) (h2 : ¬ p.data <+: q.data) (e : String) :
    jsStartsWith (p ++ e) q = false := by
  have h := not_prefix_append_of q.data p.data h1 h2 e.data
  unfold jsStartsWith
  rw [strData_append]
  exact Bool.eq_false_iff.mpr (fun hh => h (List.isPrefixOf_iff_prefix.mp hh))

theorem jsStartsWith_append_self (p e : String) : jsStartsWith (p ++ e) p = true := by
  unfold jsStartsWith
  rw [strData_append]
  exact List.isPrefixOf_iff_prefix.mpr (List.prefix_append _ _)

theorem dropChars_append (p e : String) : dropChars (p ++ e) (strLen p) = e := by
  apply strEqOfData
  show (p ++ e).data.drop p.data.length = e.data
  rw [strData_append]
  exact List.drop_left _ _

theorem stripConflicting_id (others : List String) (d : String)
    (h : ∀ q ∈ others, jsStartsWith d q = false) : stripConflicting others d = d := by
  induction others with
  | nil => rfl
  | cons q qs ih =>
    have h0 : jsStartsWith d q = false := h q (List.mem_cons_self _ _)
    show List.foldl _ d (q :: qs) = d
    rw [List.foldl_cons]
    simp only [h0, Bool.false_eq_true, if_false]
    exact ih (fun q' hq' => h q' (List.mem_cons_of_mem _ hq'))

/-- Core of the round-trip property of a toggle handler on a clean draft. -/
theorem togglePrefixOp_roundtrip (p : String) (others : List String) (d : String)
    (hdp : jsStartsWith d p = false)
    (hdo : ∀ q ∈ others, jsStartsWith d q = false)
    (hcross : ∀ q ∈ others, jsStartsWith (p ++ d) q = false) :
    togglePrefixOp p others (togglePrefixOp p others d) = d := by
  have e1 : togglePrefixOp p others d = p ++ d := by
    unfold togglePrefixOp
    rw [stripConflicting_id others d hdo]
    simp [hdp]
  rw [e1]
  unfold togglePrefixOp
  rw [stripConflicting_id others (p ++ d) hcross]
  simp [jsStartsWith_append_self, dropChars_append]

theorem replaceFirstSeq_of_isPrefixOf (pat repl s : List Char) (h : pat.isPrefixOf s = true) :
    replaceFirstSeq pat repl s = repl ++ s.drop pat.length := by
  cases s with
  | nil => rw [replaceFirstSeq, if_pos h]; simp
  | cons c cs => rw [replaceFirstSeq, if_pos h]

/-! ## C6: toggling an intent prefix twice -/

/-- C6 (amended): for every draft that starts with none of the three intent
markers, applying any one of the three toggle handlers twice yields the
original draft again.  (The unrestricted claim is false: a draft already
carrying a conflicting marker has it stripped by the first application and
not restored, see the counterexample.) -/
theorem c6_toggle_roundtrip_amended :
    ∀ d : String,
      jsStartsWith d "Explain the concept of " = false →
      jsStartsWith d "Exam Note: " = false →
      jsStartsWith d "Generate Image: " = false →
      handleExplainClick (handleExplainClick d) = d ∧
      handleExamModeClick (handleExamModeClick d) = d ∧
      handleChartClick (handleChartClick d) = d := by
  intro d hE hN hG
  refine ⟨?_, ?_, ?_⟩
  · unfold handleExplainClick
    apply togglePrefixOp_roundtrip _ _ _ hE
    · intro q hq
      simp only [List.mem_cons, List.not_mem_nil, or_false] at hq
      rcases hq with rfl | rfl
      · exact hN
      · exact hG
    · intro q hq
      simp only [List.mem_cons, List.not_mem_nil, or_false] at hq
      rcases hq with rfl | rfl
      · exact jsStartsWith_append_false _ _ (by decide) (by decide) d
      · exact jsStartsWith_append_false _ _ (by decide) (by decide) d
  · unfold handleExamModeClick
    apply togglePrefixOp_roundtrip _ _ _ hN
    · intro q hq
      simp only [List.mem_cons, List.not_mem_nil, or_false] at hq
      rcases hq with rfl | rfl
      · exact hE
      · exact hG
    · intro q hq
      simp only [List.mem_cons, List.not_mem_nil, or_false] at hq
      rcases hq with rfl | rfl
      · exact jsStartsWith_append_false _ _ (by decide) (by decide) d
      · exact jsStartsWith_append_false _ _ (by decide) (by decide) d
  · unfold handleChartClick
    apply togglePrefixOp_roundtrip _ _ _ hG
    · intro q hq
      simp only [List.mem_cons, List.not_mem_nil, or_false] at hq
      rcases hq with rfl | rfl
      · exact hE
      · exact hN
    · intro q hq
      simp only [List.mem_cons, List.not_mem_nil, or_false] at hq
      rcases hq with rfl | rfl
      · exact jsStartsWith_append_false _ _ (by decide) (by decide) d
      · exact jsStartsWith_append_false _ _ (by decide) (by decide) d

/-- C6 witness: the round trip at the concrete clean draft
"What is depreciation", for all three toggle handlers. -/
theorem c6_witness :
    jsStartsWith "What is depreciation" "Explain the concept of " = false ∧
    jsStartsWith "What is depreciation" "Exam Note: " = false ∧
    jsStartsWith "What is depreciation" "Generate Image: " = false ∧
    (handleExplainClick (handleExplainClick "What is depreciation") = "What is depreciation" ∧
     handleExamModeClick (handleExamModeClick "What is depreciation") = "What is depreciation" ∧
     handleChartClick (handleChartClick "What is depreciation") = "What is depreciation") :=
  ⟨by decide, by decide, by decide,
   c6_toggle_roundtrip_amended "What is depreciation" (by decide) (by decide) (by decide)⟩

/-- C6 counterexample: toggling "Exam Note: " twice on a draft that starts
with the conflicting marker "Explain the concept of " strips that marker and
does not restore it, so the double toggle is not the identity. -/
theorem c6_counterexample :
    handleExamModeClick (handleExamModeClick "Explain the concept of X") = "X" ∧
    ("X" : String) ≠ "Explain the concept of X" := by decide

/-! ## C1: routing of the draft text -/

/-- C1 (amended): the request is routed to the image-generation flow iff the
EFFECTIVE prompt starts with the prefix "Generate Image:" (no trailing space
required).  With no subject selected the effective prompt is the draft
itself; with a selected subject the effective prompt is the draft prefixed
by "[Subject: s] ", which never routes to image generation — so routing does
depend on the selected subject.  For a routed prompt the prefix is stripped
(first-occurrence replacement, then trim). -/
theorem c1_routing_amended :
    (∀ text : String,
        routesToImageGen (promptContext none text) = true ↔
          ∃ r : String, text = "Generate Image:" ++ r) ∧
    (∀ subject text : String,
        routesToImageGen (promptContext (some subject) text) = false) ∧
    (∀ r : String, imagePromptOf ("Generate Image: " ++ r) = jsTrim r) := by
  refine ⟨?_, ?_, ?_⟩
  · intro text
    show jsStartsWith text "Generate Image:" = true ↔ _
    constructor
    · intro h
      obtain ⟨rest, hrest⟩ := List.isPrefixOf_iff_prefix.mp h
      refine ⟨⟨rest⟩, strEqOfData ?_⟩
      rw [strData_append]
      exact hrest.symm
    · rintro ⟨r, rfl⟩
      exact jsStartsWith_append_self _ _
  · intro subject text
    show jsStartsWith ("[Subject: " ++ subject ++ "] " ++ text) "Generate Image:" = false
    rw [strAppend_assoc, strAppend_assoc]
    exact jsStartsWith_append_false _ _ (by decide) (by decide) _
  · intro r
    unfold imagePromptOf jsReplaceFirst
    have hdata : ("Generate Image: " ++ r).data = "Generate Image:".data ++ (' ' :: r.data) := by
      rw [strData_append]
      rw [show "Generate Image: ".data = "Generate Image:".data ++ [' '] from rfl]
      rw [List.append_assoc]
      rfl
    rw [hdata]
    rw [replaceFirstSeq_of_isPrefixOf _ _ _
      (List.isPrefixOf_iff_prefix.mpr (List.prefix_append _ _))]
    rw [List.nil_append]
    rw [show ("Generate Image:".data ++ (' ' :: r.data)).drop "Generate Image:".data.length
        = ' ' :: r.data from List.drop_left _ _]
    unfold jsTrim
    apply congrArg String.mk
    show (((' ' :: r.data).dropWhile isJsSpace).reverse.dropWhile isJsSpace).reverse = _
    rw [List.dropWhile_cons]
    simp [isJsSpace]

/-- C1 counterexample: with the subject "Taxation" selected, a draft that
starts with the claimed prefix "Generate Image: " is NOT routed to the
image-generation flow (routing is affected by the selected subject); and
without a subject, a draft starting with "Generate Image:" but lacking the
claimed trailing space IS routed. -/
theorem c1_counterexample :
    routesToImageGen (promptContext (some "Taxation") "Generate Image: pie chart of expenses")
      = false ∧
    jsStartsWith "Generate Image: pie chart of expenses" "Generate Image: " = true ∧
    routesToImageGen (promptContext none "Generate Image:pie chart") = true ∧
    jsStartsWith "Generate Image:pie chart" "Generate Image: " = false := by decide

/-! ## C2: folding an image-generation response -/

theorem collectImageParts_spec (parts : List Part) :
    ∀ (text : String) (image : Option String),
      collectImageParts parts text image =
        (text ++ allTextConcat parts,
         match lastInlineImage parts with
         | some u => some u
         | none => image) := by
  induction parts with
  | nil =>
    intro text image
    rw [collectImageParts, allTextConcat, lastInlineImage, strAppend_empty]
  | cons p rest ih =>
    intro text image
    cases p with
    | text s =>
      rw [collectImageParts, allTextConcat, lastInlineImage, ih]
      by_cases hs : s = ""
      · subst hs
        rw [if_pos rfl, strEmpty_append]
      · rw [if_neg hs, strAppend_assoc]
    | inlineData m d =>
      rw [collectImageParts, allTextConcat, lastInlineImage, ih]
      cases h : lastInlineImage rest <;> simp

/-- C2 (amended): for every image-generation response, the result's text is
the concatenation of all text parts in their original order (falling back to
the canned message when that concatenation is empty), and the result's image
field holds at most one inline image, namely the LAST inline-image part
encountered in part order (each inline part overwrites the previous one),
rendered as a data URL.  (The claim's "first encountered" is false, see the
counterexample.) -/
theorem c2_image_response_amended :
    ∀ parts : List Part,
      (imageGenResult parts).text =
        (if allTextConcat parts = "" then cannedImageText else allTextConcat parts) ∧
      (imageGenResult parts).generatedImage = lastInlineImage parts := by
  intro parts
  unfold imageGenResult
  rw [collectImageParts_spec parts "" none]
  constructor
  · rw [strEmpty_append]
  · cases h : lastInlineImage parts <;> simp [h]

/-- C2 counterexample: with two inline-image parts, the result retains the
SECOND (last) one, not the first as the claim states; the text parts are
still concatenated in order. -/
theorem c2_counterexample :
    (imageGenResult
        [Part.inlineData "image/png" "AAAA", Part.text "hello",
         Part.inlineData "image/png" "BBBB"]).generatedImage =
      some "data:image/png;base64,BBBB" ∧
    firstInlineImage
        [Part.inlineData "image/png" "AAAA", Part.text "hello",
         Part.inlineData "image/png" "BBBB"] =
      some "data:image/png;base64,AAAA" ∧
    (some "data:image/png;base64,BBBB" : Option String) ≠
      some "data:image/png;base64,AAAA" ∧
    (imageGenResult
        [Part.inlineData "image/png" "AAAA", Part.text "hello",
         Part.inlineData "image/png" "BBBB"]).text = "hello" ∧
    (imageGenResult [Part.inlineData "image/png" "AAAA"]).text = cannedImageText := by
  decide

/-! ## C4: formatting of textual attachments -/

/-- C4 (amended): a message carrying a Textual attachment contributes
exactly one Text part and no InlineBinary part.  For HISTORY messages that
part is "[Attached File: n]\n" ++ c ++ "\n[End of File]" (followed by the
message's own text part); for the CURRENT turn the attachment part carries
an extra trailing blank line, "...\n[End of File]\n\n" — so the current turn
does NOT use exactly the same format as historical turns (see the
counterexample). -/
theorem c4_textual_attachment_amended :
    (∀ (m : AppMessage) (att : Attachment),
        m.attachment = some att → isTextBased att.mimeType = true →
        historyParts m =
          [Part.text ("[Attached File: " ++ att.name ++ "]\n" ++
             decodeBase64Text (extractBase64 att.data) ++ "\n[End of File]"),
           Part.text m.text]) ∧
    (∀ (prompt : String) (att : Attachment),
        isTextBased att.mimeType = true →
        currentParts prompt (some att) =
          [Part.text ("[Attached File: " ++ att.name ++ "]\n" ++
             decodeBase64Text (extractBase64 att.data) ++ "\n[End of File]\n\n"),
           Part.text prompt]) := by
  constructor
  · intro m att hm ht
    unfold historyParts
    rw [hm]
    simp only [ht, if_true]
    rfl
  · intro prompt att ht
    unfold currentParts
    simp only [ht, if_true]
    rfl

/-- C4 witness: the history formatting at a concrete CSV attachment whose
payload "YQ==" decodes to "a". -/
theorem c4_witness :
    (⟨"1", "user", "sum column a", 0,
        some ⟨"YQ==", "text/csv", "data.csv"⟩, none⟩ : AppMessage).attachment =
      some ⟨"YQ==", "text/csv", "data.csv"⟩ ∧
    isTextBased (Attachment.mk "YQ==" "text/csv" "data.csv").mimeType = true ∧
    historyParts ⟨"1", "user", "sum column a", 0,
        some ⟨"YQ==", "text/csv", "data.csv"⟩, none⟩ =
      [Part.text ("[Attached File: " ++ (Attachment.mk "YQ==" "text/csv" "data.csv").name ++
         "]\n" ++ decodeBase64Text (extractBase64 (Attachment.mk "YQ==" "text/csv" "data.csv").data) ++
         "\n[End of File]"),
       Part.text "sum column a"] :=
  ⟨rfl, by decide,
   c4_textual_attachment_amended.1 _ ⟨"YQ==", "text/csv", "data.csv"⟩ rfl (by decide)⟩

/-- C4 counterexample: for the same textual attachment, the current turn's
attachment part has a trailing blank line that the history format lacks, so
the two formats differ. -/
theorem c4_counterexample :
    (currentParts "sum column a" (some ⟨"YQ==", "text/csv", "data.csv"⟩)).head? =
      some (Part.text "[Attached File: data.csv]\na\n[End of File]\n\n") ∧
    (historyParts ⟨"1", "user", "sum column a", 0,
        some ⟨"YQ==", "text/csv", "data.csv"⟩, none⟩).head? =
      some (Part.text "[Attached File: data.csv]\na\n[End of File]") ∧
    ("[Attached File: data.csv]\na\n[End of File]\n\n" : String) ≠
      "[Attached File: data.csv]\na\n[End of File]" := by
  decide

/-! ## C5: extracting the base64 payload from attachment data -/

theorem splitOnChar_not_mem (sep : Char) (l : List Char) (h : sep ∉ l) :
    splitOnChar sep l = [l] := by
  induction l with
  | nil => rfl
  | cons c cs ih =>
    have hc : ¬ c = sep := fun hh => h (hh ▸ List.mem_cons_self _ _)
    rw [splitOnChar, if_neg hc, ih (fun hm => h (List.mem_cons_of_mem _ hm))]

theorem splitOnChar_append (sep : Char) (a rest : List Char) (h : sep ∉ a) :
    splitOnChar sep (a ++ sep :: rest) = a :: splitOnChar sep rest := by
  induction a with
  | nil => rw [List.nil_append, splitOnChar, if_pos rfl]
  | cons c cs ih =>
    have hc : ¬ c = sep := fun hh => h (hh ▸ List.mem_cons_self _ _)
    rw [List.cons_append, splitOnChar, if_neg hc,
      ih (fun hm => h (List.mem_cons_of_mem _ hm))]

/-- C5 (amended): the payload passed onward is `s.split(',')[1] || s`, i.e.
the segment of `s` strictly between the first and second commas (to the end
when there is no second comma) — not everything after the first comma — and
when that segment is empty, or `s` has no comma at all, the whole string `s`
is used unchanged.  In particular a well-formed data URL whose base64
payload is EMPTY is passed on whole, scheme prefix included (see the
counterexample). -/
theorem c5_payload_extraction_amended :
    (∀ s : String, ',' ∉ s.data → extractBase64 s = s) ∧
    (∀ a b : String, ',' ∉ a.data → ',' ∉ b.data → b ≠ "" →
        extractBase64 (a ++ "," ++ b) = b) ∧
    (∀ a b c : String, ',' ∉ a.data → ',' ∉ b.data → b ≠ "" →
        extractBase64 (a ++ "," ++ b ++ "," ++ c) = b) ∧
    (∀ a : String, ',' ∉ a.data →
        extractBase64 (a ++ ",") = a ++ ",") := by
  refine ⟨?_, ?_, ?_, ?_⟩
  · intro s h
    unfold extractBase64 jsSplit
    rw [splitOnChar_not_mem _ _ h]
    rfl
  · intro a b ha hb hbne
    unfold extractBase64 jsSplit
    rw [show (a ++ "," ++ b).data = a.data ++ ',' :: b.data by
      simp [strData_append]]
    rw [splitOnChar_append _ _ _ ha, splitOnChar_not_mem _ _ hb]
    simp only [List.map_cons, List.map_nil, strMkData]
    rw [show ([a, b].get? 1) = some b from rfl]
    simp [hbne]
  · intro a b c ha hb hbne
    unfold extractBase64 jsSplit
    rw [show (a ++ "," ++ b ++ "," ++ c).data
        = a.data ++ ',' :: (b.data ++ ',' :: c.data) by
      simp [strData_append]]
    rw [splitOnChar_append _ _ _ ha, splitOnChar_append _ _ _ hb]
    simp only [List.map_cons, strMkData]
    rw [show ((a :: b :: (splitOnChar ',' c.data).map (fun l => (⟨l⟩ : String))).get? 1)
        = some b from rfl]
    simp [hbne]
  · intro a ha
    unfold extractBase64 jsSplit
    rw [show (a ++ ",").data = a.data ++ ',' :: ([] : List Char) by
      simp [strData_append]]
    rw [splitOnChar_append _ _ _ ha]
    rw [splitOnChar]
    simp only [List.map_cons, List.map_nil, strMkData]
    rfl

/-- C5 witness: a well-formed data URL with a non-empty comma-free payload
has exactly that payload extracted. -/
theorem c5_witness :
    (',' ∉ ("data:text/csv;base64" : String).data) ∧
    (',' ∉ ("YQ==" : String).data) ∧
    ("YQ==" : String) ≠ "" ∧
    extractBase64 ("data:text/csv;base64" ++ "," ++ "YQ==") = "YQ==" :=
  ⟨by decide, by decide, by decide,
   c5_payload_extraction_amended.2.1 "data:text/csv;base64" "YQ==" (by decide) (by decide)
     (by decide)⟩

/-- C5 counterexample: for a well-formed data URL with EMPTY payload the
claim demands the empty payload (the substring after the first comma), but
the code passes the whole string unchanged; and with two commas the claim
demands everything after the first comma, but the code passes only the
segment between the commas. -/
theorem c5_counterexample :
    extractBase64 "data:image/png;base64," = "data:image/png;base64," ∧
    specAfterComma "data:image/png;base64," = "" ∧
    ("data:image/png;base64," : String) ≠ "" ∧
    extractBase64 "a,b,c" = "b" ∧
    specAfterComma "a,b,c" = "b,c" ∧
    ("b" : String) ≠ "b,c" := by decide

/-! ## C7: base64 decode failures never raise -/

/-- C7 (confirmed): the base64-to-text decoding step is a total function of
the payload; on any decoding failure (any payload `atob` rejects) it
returns the empty string, and a textual attachment with such a payload
still assembles into the current turn, with empty decoded content between
the file markers, instead of aborting the request. -/
theorem c7_decode_failure_soft :
    (∀ payload : String, jsAtob payload = none → decodeBase64Text payload = "") ∧
    (∀ (prompt : String) (att : Attachment),
        isTextBased att.mimeType = true →
        jsAtob (extractBase64 att.data) = none →
        currentParts prompt (some att) =
          [Part.text ("[Attached File: " ++ att.name ++ "]\n" ++ "" ++ "\n[End of File]\n\n"),
           Part.text prompt]) := by
  constructor
  · intro payload h
    unfold decodeBase64Text
    rw [h]
  · intro prompt att ht hfail
    unfold currentParts
    simp only [ht, if_true]
    rw [show decodeBase64Text (extractBase64 att.data) = "" by
      unfold decodeBase64Text; rw [hfail]]
    rfl

/-- C7 witness: the malformed payload "!!!" is rejected by `atob`, decodes
to the empty string, and the turn still assembles. -/
theorem c7_witness :
    jsAtob "!!!" = none ∧
    decodeBase64Text "!!!" = "" ∧
    isTextBased (Attachment.mk "!!!" "text/plain" "notes.txt").mimeType = true ∧
    jsAtob (extractBase64 (Attachment.mk "!!!" "text/plain" "notes.txt").data) = none ∧
    currentParts "fix this" (some ⟨"!!!", "text/plain", "notes.txt"⟩) =
      [Part.text ("[Attached File: " ++ (Attachment.mk "!!!" "text/plain" "notes.txt").name ++
         "]\n" ++ "" ++ "\n[End of File]\n\n"),
       Part.text "fix this"] :=
  ⟨by decide, c7_decode_failure_soft.1 "!!!" (by decide), by decide, by decide,
   c7_decode_failure_soft.2 "fix this" ⟨"!!!", "text/plain", "notes.txt"⟩ (by decide) (by decide)⟩

/-! ## C3: mime resolution from the file extension -/

/-- C3 (confirmed): when the declared media type is missing (empty) or is
`application/octet-stream`, the effective media type equals the fixed
extension table's entry for the file name's extension, with
`application/octet-stream` as the result for every extension outside the
table; the table maps csv, md, json, pdf, txt, tsv, xml, yml, yaml exactly
as claimed, and the untabled fallback `application/octet-stream` is
classified Binary. -/
theorem resolveExtMime_ne_empty (e : String) :
    resolveExtMime e "application/octet-stream" ≠ "" := by
  unfold resolveExtMime
  split_ifs <;> decide

theorem resolveExtMime_empty_fb (e : String) :
    (if resolveExtMime e "" = "" then "application/octet-stream" else resolveExtMime e "")
      = resolveExtMime e "application/octet-stream" := by
  by_cases h1 : e = "csv"
  · simp [resolveExtMime, h1]
  · by_cases h2 : e = "md"
    · simp [resolveExtMime, h1, h2]
    · by_cases h3 : e = "json"
      · simp [resolveExtMime, h1, h2, h3]
      · by_cases h4 : e = "pdf"
        · simp [resolveExtMime, h1, h2, h3, h4]
        · by_cases h5 : e = "txt"
          · simp [resolveExtMime, h1, h2, h3, h4, h5]
          · by_cases h6 : e = "tsv"
            · simp [resolveExtMime, h1, h2, h3, h4, h5, h6]
            · by_cases h7 : e = "xml"
              · simp [resolveExtMime, h1, h2, h3, h4, h5, h6, h7]
              · by_cases h8 : e = "yml"
                · simp [resolveExtMime, h1, h2, h3, h4, h5, h6, h7, h8]
                · by_cases h9 : e = "yaml"
                  · simp [resolveExtMime, h1, h2, h3, h4, h5, h6, h7, h8, h9]
                  · simp [resolveExtMime, h1, h2, h3, h4, h5, h6, h7, h8, h9]

theorem c3_mime_resolution :
    (∀ fileType name : String,
        (fileType = "" ∨ fileType = "application/octet-stream") →
        effectiveMimeType fileType name = resolveExtMime (extOf name) "application/octet-stream") ∧
    ((["csv", "md", "json", "pdf", "txt", "tsv", "xml", "yml", "yaml"].map
        (fun e => resolveExtMime e "application/octet-stream")) =
      ["text/csv", "text/markdown", "application/json", "application/pdf", "text/plain",
       "text/tab-separated-values", "text/xml", "text/yaml", "text/yaml"]) ∧
    (∀ e : String,
        e ∉ (["csv", "md", "json", "pdf", "txt", "tsv", "xml", "yml", "yaml"] : List String) →
        resolveExtMime e "application/octet-stream" = "application/octet-stream") ∧
    isTextBased "application/octet-stream" = false := by
  refine ⟨?_, by decide, ?_, by decide⟩
  · intro fileType name h
    rcases h with rfl | rfl
    · simp only [effectiveMimeType]
      rw [if_pos (Or.inl trivial)]
      exact resolveExtMime_empty_fb (extOf name)
    · simp only [effectiveMimeType]
      rw [if_pos (Or.inr trivial)]
      rw [if_neg (resolveExtMime_ne_empty (extOf name))]
  · intro e he
    simp only [List.mem_cons, List.not_mem_nil, or_false, not_or] at he
    obtain ⟨h1, h2, h3, h4, h5, h6, h7, h8, h9⟩ := he
    simp [resolveExtMime, h1, h2, h3, h4, h5, h6, h7, h8, h9]

/-- C3 witness: a missing declared type with a `.md` name resolves through
the table, and the untabled extension "gz" falls back to
`application/octet-stream`. -/
theorem c3_witness :
    (("" : String) = "" ∨ ("" : String) = "application/octet-stream") ∧
    effectiveMimeType "" "notes.md" = resolveExtMime (extOf "notes.md") "application/octet-stream" ∧
    (("gz" : String) ∉
      (["csv", "md", "json", "pdf", "txt", "tsv", "xml", "yml", "yaml"] : List String)) ∧
    resolveExtMime "gz" "application/octet-stream" = "application/octet-stream" :=
  ⟨Or.inl rfl, c3_mime_resolution.1 "" "notes.md" (Or.inl rfl), by decide,
   c3_mime_resolution.2.2.1 "gz" (by decide)⟩

/-! ## C8: restoring the persisted session -/

theorem natDigitsRevAux_ofDigits :
    ∀ fuel n : Nat, n ≤ fuel → Nat.ofDigits 10 (natDigitsRevAux fuel n) = n := by
  intro fuel
  induction fuel with
  | zero =>
    intro n hn
    interval_cases n
    rfl
  | succ f ih =>
    intro n hn
    cases n with
    | zero => rfl
    | succ m =>
      rw [natDigitsRevAux, Nat.ofDigits_cons]
      have hdiv : (m + 1) / 10 ≤ f := by
        have h1 : (m + 1) / 10 < m + 1 := Nat.div_lt_self (Nat.succ_pos m) (by norm_num)
        omega
      rw [ih _ hdiv]
      omega

theorem natDigitsRevAux_mem_lt :
    ∀ fuel n d : Nat, d ∈ natDigitsRevAux fuel n → d < 10 := by
  intro fuel
  induction fuel with
  | zero =>
    intro n d h
    simp [natDigitsRevAux] at h
  | succ f ih =>
    intro n d h
    cases n with
    | zero => simp [natDigitsRevAux] at h
    | succ m =>
      rw [natDigitsRevAux] at h
      rcases List.mem_cons.mp h with h1 | h2
      · subst h1
        exact Nat.mod_lt _ (by norm_num)
      · exact ih _ _ h2

theorem charToDigit_digitToChar {d : Nat} (h : d < 10) :
    charToDigit (digitToChar d) = d := by
  interval_cases d <;> decide

/-- Serialization of a message timestamp round-trips on restore. -/
theorem parseStoredDate_serializeDate (t : Nat) :
    parseStoredDate (serializeDate t) = t := by
  unfold parseStoredDate serializeDate
  show Nat.ofDigits 10 (((((natDigitsRev t).map digitToChar).reverse).map charToDigit).reverse) = t
  rw [List.map_reverse, List.reverse_reverse, List.map_map]
  have hmap : List.map (charToDigit ∘ digitToChar) (natDigitsRev t) = natDigitsRev t := by
    have h : ∀ d ∈ natDigitsRev t, (charToDigit ∘ digitToChar) d = id d :=
      fun d hd => charToDigit_digitToChar (natDigitsRevAux_mem_lt t t d hd)
    rw [List.map_congr_left h, List.map_id]
  rw [hmap]
  exact natDigitsRevAux_ofDigits t t le_rfl

theorem reviveMessage_serializeMessage (m : AppMessage) :
    reviveMessage (serializeMessage m) = m := by
  cases m
  simp [reviveMessage, serializeMessage, parseStoredDate_serializeDate]

theorem mapRevive_mapSerialize (l : List AppMessage) :
    List.map reviveMessage (List.map serializeMessage l) = l := by
  induction l with
  | nil => rfl
  | cons x xs ih => simp [reviveMessage_serializeMessage, ih]

/-- C8 (confirmed): restoring from a durable snapshot always yields
`isLoading = false` (whatever the snapshot stored), revives every message's
serialized timestamp string back into a timestamp value (so a snapshot of a
session restores to that session with the loading flag cleared), and a
missing or unreadable snapshot restores to the empty default, which also has
`isLoading = false`. -/
theorem c8_restore_semantics :
    (∀ saved : StoredState, (restoreState (some saved)).isLoading = false) ∧
    (∀ saved : StoredState,
        restoreState (some saved) =
          ⟨saved.messages.map reviveMessage, false, saved.selectedSubject⟩) ∧
    (∀ t : Nat, parseStoredDate (serializeDate t) = t) ∧
    (∀ st : ChatState,
        restoreState (some (serializeState st)) = ⟨st.messages, false, st.selectedSubject⟩) ∧
    restoreState none = initialChatState ∧
    initialChatState.isLoading = false := by
  refine ⟨fun saved => rfl, fun saved => rfl, parseStoredDate_serializeDate, ?_, rfl, rfl⟩
  intro st
  simp only [restoreState, serializeState]
  rw [mapRevive_mapSerialize]

/-! ## C9: the search filter -/

/-- C9 (amended): the filter returns the message sequence itself, unchanged
and in order, whenever the search term TRIMS to the empty string (empty or
whitespace-only, not just empty); otherwise it returns exactly the messages
whose text contains the term case-insensitively (both sides lowercased), in
original order; in all cases the result is a sublist of the input (order
preserved, nothing mutated). -/
theorem c9_filter_amended :
    (∀ (ms : List AppMessage) (t : String), jsTrim t = "" → displayedMessages ms t = ms) ∧
    (∀ (ms : List AppMessage) (t : String), jsTrim t ≠ "" →
        displayedMessages ms t =
          ms.filter (fun m => jsIncludes (jsToLower m.text) (jsToLower t))) ∧
    (∀ (ms : List AppMessage) (t : String), (displayedMessages ms t).Sublist ms) := by
  refine ⟨?_, ?_, ?_⟩
  · intro ms t h
    unfold displayedMessages
    rw [if_pos h]
  · intro ms t h
    unfold displayedMessages
    rw [if_neg h]
  · intro ms t
    unfold displayedMessages
    split_ifs
    · exact List.Sublist.refl ms
    · exact List.filter_sublist ms

/-- C9 witness: the empty term returns the list unchanged, and the term
"depreciation" matches "Depreciation is an expense" case-insensitively. -/
theorem c9_witness :
    jsTrim "" = "" ∧
    displayedMessages [⟨"1", "model", "Depreciation is an expense", 0, none, none⟩] "" =
      [⟨"1", "model", "Depreciation is an expense", 0, none, none⟩] ∧
    jsTrim "depreciation" ≠ "" ∧
    displayedMessages [⟨"1", "model", "Depreciation is an expense", 0, none, none⟩]
        "depreciation" =
      List.filter (fun m => jsIncludes (jsToLower m.text) (jsToLower "depreciation"))
        [⟨"1", "model", "Depreciation is an expense", 0, none, none⟩] :=
  ⟨by decide,
   c9_filter_amended.1 [⟨"1", "model", "Depreciation is an expense", 0, none, none⟩] ""
     (by decide),
   by decide,
   c9_filter_amended.2.1 [⟨"1", "model", "Depreciation is an expense", 0, none, none⟩]
     "depreciation" (by decide)⟩

/-- C9 counterexample: a whitespace-only term is non-empty, yet the filter
returns the full sequence, including a message that does NOT contain the
term — contradicting the claim that for every non-empty term exactly the
matching messages are returned. -/
theorem c9_counterexample :
    displayedMessages [⟨"1", "user", "ab", 0, none, none⟩] " " =
      [⟨"1", "user", "ab", 0, none, none⟩] ∧
    (" " : String) ≠ "" ∧
    jsIncludes (jsToLower "ab") (jsToLower " ") = false := by decide

/-! ## C10: goHome leaves the snapshot, reset deletes it -/

/-- C10 (confirmed): `goHome` empties the in-memory messages and clears the
subject while leaving the durable snapshot exactly as it was, whereas
`resetChat` deletes the snapshot immediately; consequently a persisted
non-empty session cleared from the screen by `goHome` is fully recovered by
the next startup's restore. -/
theorem c10_goHome_frame :
    (∀ w : SessionWorld,
        (goHome w).2 = w.2 ∧ (goHome w).1.messages = [] ∧
        (goHome w).1.selectedSubject = none) ∧
    (∀ w : SessionWorld, (resetChat w).2 = none ∧ (resetChat w).1 = initialChatState) ∧
    (∀ st : ChatState, st.messages ≠ [] →
        (restoreState (goHome (st, some (serializeState st))).2).messages = st.messages) := by
  refine ⟨fun w => ⟨rfl, rfl, rfl⟩, fun w => ⟨rfl, rfl⟩, ?_⟩
  intro st _hne
  show (restoreState (some (serializeState st))).messages = st.messages
  simp only [restoreState, serializeState]
  exact mapRevive_mapSerialize st.messages

/-- C10 witness: a one-message session with a subject, persisted, cleared
with `goHome`, restores to the original conversation. -/
theorem c10_witness :
    (⟨[⟨"1", "user", "hi", 5, none, none⟩], true, some "Taxation"⟩ : ChatState).messages ≠ [] ∧
    (restoreState
        (goHome (⟨[⟨"1", "user", "hi", 5, none, none⟩], true, some "Taxation"⟩,
          some (serializeState
            ⟨[⟨"1", "user", "hi", 5, none, none⟩], true, some "Taxation"⟩))).2).messages =
      (⟨[⟨"1", "user", "hi", 5, none, none⟩], true, some "Taxation"⟩ : ChatState).messages :=
  ⟨by decide,
   c10_goHome_frame.2.2 ⟨[⟨"1", "user", "hi", 5, none, none⟩], true, some "Taxation"⟩
     (by decide)⟩

end AcctSolver
